import Mathlib

/-!
Verification model of the X4 Python Pipe Server core
(`X4_Python_Pipe_Server/Main.py`, `Classes/Pipe.py`, `server_process.py`).

Paths (`pathlib.PurePath` values) are modelled as lists of path components
(`PurePath.parts`): `Path("C:/Game/lua/?.lua")` becomes
`["C:", "Game", "lua", "?.lua"]`.  `.name` is the last component (the empty
string for the empty path, matching `Path('.').name == ''`), `.parent` drops
the last component, and `[p] + list(p.parents)` is the descending chain of
prefixes of the component list.  (For an anchored path, pathlib stops the
parent chain at the anchor, whose `.name` is `''`; the model's chain instead
ends with the drive component and then `[]`, whose names — `"C:"` and `""` —
never match the comparisons performed by the code, so the chains are
interchangeable for the predicates modelled here.)

The pipe-message machinery of `run_server` is modelled as a state machine:
`handleMessage` embeds one iteration of the inner message loop,
`runMsgs` a whole session, `runFrom`/`runSessions` the outer
reconnect loop, with the environment (filesystem, manifests, permission map,
importability of modules) abstracted as an `Env` of functions.
-/

namespace X4

/-- Split a character list at every occurrence of `sep`: the semantics of
Python's `str.split(sep)` (and of `String.splitOn`) for a one-character
separator, written as structural recursion so it evaluates in the kernel. -/
def splitChars (sep : Char) : List Char → List (List Char)
  | [] => [[]]
  | c :: rest =>
    match splitChars sep rest with
    | [] => if c = sep then [[], []] else [[c]]
    | g :: gs => if c = sep then [] :: g :: gs else (c :: g) :: gs

/-- `s.split(sep)` for a one-character separator. -/
def splitStr (sep : Char) (s : String) : List String :=
  (splitChars sep s.data).map String.mk

/-- Left-to-right split at every occurrence of a non-empty separator
string: the semantics of Python's `str.split(sep)`.  The `fuel`
argument (instantiated with the input length by `splitOnStr`) makes the
recursion structural. -/
def splitOnChars (sep : List Char) : Nat → List Char → List (List Char)
  | _, [] => [[]]
  | 0, cs => [cs]
  | fuel + 1, c :: rest =>
    if !sep.isEmpty && sep.isPrefixOf (c :: rest) then
      [] :: splitOnChars sep fuel ((c :: rest).drop sep.length)
    else
      match splitOnChars sep fuel rest with
      | [] => [[c]]
      | g :: gs => (c :: g) :: gs

/-- `s.split(sep)` for an arbitrary separator, on character lists. -/
def splitOnStr (sep cs : List Char) : List (List Char) :=
  splitOnChars sep cs.length cs

/-- `s.startswith(pre)`. -/
def startsWithStr (pre s : String) : Bool :=
  pre.data.isPrefixOf s.data

/-- `s[n:]` for ASCII strings — drop the first `n` characters. -/
def dropStr (n : Nat) (s : String) : String :=
  String.mk (s.data.drop n)

/-- `s.lower()` (sufficient for the ASCII names compared by the code). -/
def lowerStr (s : String) : String :=
  String.mk (s.data.map Char.toLower)

/-- Path components, as in `pathlib.PurePath.parts`. -/
abbrev PathParts := List String

/-- `pathlib.Path(s)` for a forward-slash string: split on `/`, dropping
empty components and `"."` (pathlib's normalization). -/
def pathParts (s : String) : PathParts :=
  (splitStr '/' s).filter (fun c => c != "" && c != ".")

/-- `PurePath.name`: the last component, `""` for the empty path. -/
def pathName (p : PathParts) : String :=
  p.getLastD ""

/-- `PurePath.as_posix()`: components joined by `/`. -/
def posixStr (p : PathParts) : String :=
  String.mk (List.intercalate ['/'] (p.map String.data))

/-- The chain `[p] + list(p.parents)` walked by `run_server`'s
`package.path:` handler: all prefixes of `p`, longest first. -/
def parentChain (p : PathParts) : List PathParts :=
  p.inits.reverse

/-- The inner loop of the `package.path:` handler (`Main.py` lines 255-261)
for one segment: the first member of `[p] + list(p.parents)` whose `.name`
lower-cases to `lua` or `ui` yields `parent.parent` as the root. -/
def segRoot (seg : String) : Option PathParts :=
  (parentChain (pathParts seg)).findSome? fun q =>
    if lowerStr (pathName q) == "lua" || lowerStr (pathName q) == "ui" then
      some q.dropLast
    else none

/-- The full segment loop of the `package.path:` handler, including its use
of the pre-existing `x4_root` value: after the first segment is processed,
the loop breaks as soon as `x4_root` is set (whether by this message or by a
previous one). -/
def updateRoot : Option PathParts → List String → Option PathParts
  | r, [] => r
  | r, seg :: rest =>
    match segRoot seg with
    | some x => some x
    | none => match r with
      | some x => some x
      | none => updateRoot none rest

/-- `[s for s in raw.split(';') if s]`. -/
def nonEmptySegments (raw : String) : List String :=
  (splitStr ';' raw).filter (fun s => s != "")

/-- The external world as seen by `run_server`: file existence, manifest
contents (`content.xml`, `none` = missing/unreadable), the permissions map
(`none` = key absent), and whether a module file imports successfully and
exposes a `main` attribute. -/
structure Env where
  fileExists : PathParts → Bool
  manifest : PathParts → Option String
  perms : String → Option Bool
  importsOk : PathParts → Bool
  hasMain : PathParts → Bool

/-- `content.split('id="')[1].split('"')[0]` from `check_permission`:
`none` models the `IndexError` raised when `id="` does not occur. -/
def extractId (content : String) : Option String :=
  match splitOnStr "id=\"".data content.data with
  | _ :: second :: _ => some (String.mk ((splitChars '"' second).headD []))
  | _ => none

/-- `check_permission(x4_path, module_path)` (`Main.py` lines 172-197).
Every exception path of the Python function (module not under
`extensions/`, fewer than 3 components so `module_path.parents[-3]` raises
`IndexError`, unreadable `content.xml`, no `id="` attribute) lands in the
`except` clause, which returns `False`; the function is total.
`module_path.parents[-3]` is the prefix of the first two components, so
`ext_dir = x4_path / module_path.parents[-3]` is `x4_path ++ take 2`. -/
def check_permission (env : Env) (x4_path : PathParts) (module_path : PathParts) : Bool :=
  if startsWithStr "extensions/" (posixStr module_path) = false then false
  else if module_path.length < 3 then false
  else
    let ext_dir := x4_path ++ module_path.take 2
    match env.manifest ext_dir with
    | none => false
    | some content =>
      match extractId content with
      | none => false
      | some ext_id =>
        let folder := pathName ext_dir
        if (env.perms ext_id).getD false then true
        else if (env.perms folder).getD false then true
        else false

/-- The extension id `check_permission` would extract for a module path:
the `id="` attribute of `content.xml` in `x4_path ++ take 2 components`. -/
def extIdOf (env : Env) (x4_path : PathParts) (module_path : PathParts) : Option String :=
  match env.manifest (x4_path ++ module_path.take 2) with
  | none => none
  | some c => extractId c

/-- True when the extension id that `check_permission` would look up (if
any) is absent from the permission map. -/
def extIdAbsent (env : Env) (x4_path : PathParts) (module_path : PathParts) : Bool :=
  match extIdOf env x4_path module_path with
  | none => true
  | some i => (env.perms i).isNone

/-- What happened to one announced relative path in the `for rel in rels`
loop of `run_server` (`Main.py` lines 271-297). -/
inductive ModuleOutcome
  | alreadySeen
  | fileMissing
  | permDenied
  | importFailed
  | noMain
  | spawned
deriving DecidableEq

/-- One iteration of `for rel in rels` in `run_server`'s `modules:` handler:
given the current `seen_modules` and `processes` lists, returns the updated
lists plus the outcome.  Mirrors the source order exactly: the
already-dispatched check, then file existence, then `check_permission`,
then `seen_modules.append` — which happens *before* the import attempt —
then import / `main`-attribute checks, then spawn (`processes.append` and
`proc.start()`). -/
def handleModule (env : Env) (root : PathParts) (seen procs : List PathParts)
    (rel : String) : List PathParts × List PathParts × ModuleOutcome :=
  let rp := pathParts rel
  if rp ∈ seen then (seen, procs, ModuleOutcome.alreadySeen)
  else if env.fileExists (root ++ rp) = false then (seen, procs, ModuleOutcome.fileMissing)
  else if check_permission env root rp = false then (seen, procs, ModuleOutcome.permDenied)
  else if env.importsOk (root ++ rp) = false then (seen ++ [rp], procs, ModuleOutcome.importFailed)
  else if env.hasMain (root ++ rp) = false then (seen ++ [rp], procs, ModuleOutcome.noMain)
  else (seen ++ [rp], procs ++ [rp], ModuleOutcome.spawned)

/-- The whole `for rel in rels` loop. -/
def handleModules (env : Env) (root : PathParts) :
    List PathParts → List PathParts → List String → List PathParts × List PathParts
  | seen, procs, [] => (seen, procs)
  | seen, procs, rel :: rest =>
    let h := handleModule env root seen procs rel
    handleModules env root h.1 h.2.1 rest

/-- The per-session state of `run_server`'s message loop: the session-local
`x4_root` plus the loop-external `seen_modules` and `processes` lists
(worker handles are identified by the relative path they were spawned
for). -/
structure SessionSt where
  x4_root : Option PathParts
  seen : List PathParts
  procs : List PathParts
deriving DecidableEq

/-- Whether one message lets the loop continue or breaks out (`restart`). -/
inductive MsgAction
  | cont
  | endSession
deriving DecidableEq

/-- The `modules:` branch of the message loop: dispatch happens only when
`x4_root` is known; otherwise the message is ignored. -/
def handleModulesMsg (env : Env) (st : SessionSt) (raw : String) : SessionSt :=
  match st.x4_root with
  | some root =>
    let sp := handleModules env root st.seen st.procs (nonEmptySegments raw)
    { st with seen := sp.1, procs := sp.2 }
  | none => st

/-- One iteration of `run_server`'s inner `while True` message loop
(`Main.py` lines 238-297), for one received message.  `ping` and unknown
messages change nothing; `restart` breaks the loop; `package.path:` runs
the root-resolution walk; `modules:` dispatches when the root is known. -/
def handleMessage (env : Env) (st : SessionSt) (msg : String) : SessionSt × MsgAction :=
  if msg == "ping" then (st, MsgAction.cont)
  else if msg == "restart" then (st, MsgAction.endSession)
  else if startsWithStr "package.path:" msg then
    let segs := nonEmptySegments (dropStr 13 msg)
    ({ st with x4_root := updateRoot st.x4_root segs }, MsgAction.cont)
  else if startsWithStr "modules:" msg then
    (handleModulesMsg env st (dropStr 8 msg), MsgAction.cont)
  else (st, MsgAction.cont)

/-- Run the message loop over a list of received messages, stopping early
when a message (i.e. `restart`) breaks the loop. -/
def runMsgs (env : Env) : SessionSt → List String → SessionSt
  | st, [] => st
  | st, msg :: rest =>
    match handleMessage env st msg with
    | (st', MsgAction.cont) => runMsgs env st' rest
    | (st', MsgAction.endSession) => st'

/-- The two exception families routed to `handle_win32_exception`:
`Client_Garbage_Collected` and `win32api.error` (carrying `funcname` and
`winerror`). -/
inductive Win32Exn
  | garbageCollected
  | apiError (funcname : String) (winerror : Nat)
deriving DecidableEq

/-- `winerror.ERROR_BROKEN_PIPE`. -/
def ERROR_BROKEN_PIPE : Nat := 109

/-- `winerror.ERROR_NO_DATA`. -/
def ERROR_NO_DATA : Nat := 232

/-- `handle_win32_exception(e, args)` (`Main.py` lines 322-341): returns
the `shutdown` flag.  Test mode always shuts down (no restart);
`Client_Garbage_Collected` and broken-pipe errors are recoverable
(`False`); a `CreateNamedPipe` failure and any other win32 error are
fatal (`True`). -/
def handle_win32_exception (test : Bool) : Win32Exn → Bool
  | e =>
    if test then true
    else match e with
      | Win32Exn.garbageCollected => false
      | Win32Exn.apiError funcname winerr =>
        if funcname == "CreateNamedPipe" then true
        else if winerr == ERROR_BROKEN_PIPE then false
        else true

/-- How one pass of `run_server`'s outer `while not shutdown` loop ended:
a `restart` message (loop break, `shutdown` untouched i.e. `False`), an
exception routed to `handle_win32_exception`, a `KeyboardInterrupt`, or
any other exception. -/
inductive SessionEnd
  | restartMsg
  | pipeExn (e : Win32Exn)
  | keyboardInterrupt
  | otherException
deriving DecidableEq

/-- The `shutdown` value after the `except` clauses of `run_server`. -/
def sessionShutdown (test : Bool) : SessionEnd → Bool
  | SessionEnd.restartMsg => false
  | SessionEnd.pipeExn e => handle_win32_exception test e
  | SessionEnd.keyboardInterrupt => true
  | SessionEnd.otherException => true

/-- One pass of the outer loop, as observed from outside: the messages the
peer delivered before the session ended, and how it ended. -/
structure Session where
  msgs : List String
  ending : SessionEnd
deriving DecidableEq

/-- The state that survives across sessions in `run_server`: `seen_modules`
and `processes` are declared outside the `while not shutdown` loop and are
never reset; `shutdown` controls whether another session starts. -/
structure RunState where
  seen : List PathParts
  procs : List PathParts
  shutdown : Bool
deriving DecidableEq

/-- One iteration of the outer `while not shutdown` loop: a fresh
`x4_root = None`, the message loop, then the exception handling that sets
`shutdown`.  `seen_modules` and `processes` carry over unchanged into the
next iteration. -/
def runSession (env : Env) (test : Bool) (rs : RunState) (s : Session) : RunState :=
  if rs.shutdown then rs
  else
    let st := runMsgs env ⟨none, rs.seen, rs.procs⟩ s.msgs
    { seen := st.seen, procs := st.procs, shutdown := sessionShutdown test s.ending }

/-- The outer loop continued from a given state over a list of sessions. -/
def runFrom (env : Env) (test : Bool) : RunState → List Session → RunState
  | rs, [] => rs
  | rs, s :: rest => runFrom env test (runSession env test rs s) rest

/-- A whole run of `run_server`: empty `seen_modules` and `processes`,
`shutdown = False`. -/
def runSessions (env : Env) (test : Bool) (sessions : List Session) : RunState :=
  runFrom env test ⟨[], [], false⟩ sessions

/-- The two worker-handle operations issued by `run_server`'s shutdown
path, tagged with the worker they are issued to. -/
inductive ProcEvent
  | close (p : PathParts)
  | join (p : PathParts)
deriving DecidableEq

/-- Whether an event is a stop signal (`Close`). -/
def ProcEvent.isClose : ProcEvent → Bool
  | ProcEvent.close _ => true
  | ProcEvent.join _ => false

/-- The `finally` block's shutdown sequence (`Main.py` lines 315-319):
`p.Close()` for every tracked process, then `p.Join()` for every tracked
process. -/
def shutdownEvents (procs : List PathParts) : List ProcEvent :=
  procs.map ProcEvent.close ++ procs.map ProcEvent.join

/-- The worker-handle operations issued by the `finally` block: the full
stop-then-join sequence when `shutdown` is set, nothing otherwise. -/
def finallyEvents (shutdown : Bool) (procs : List PathParts) : List ProcEvent :=
  if shutdown then shutdownEvents procs else []

/-- What one `win32file.ReadFile` call on the inbound pipe produced: a
decoded payload, or a `pywintypes.error` with a winerror code. -/
inductive ReadOutcome
  | data (payload : String)
  | ioError (winerr : Nat)
deriving DecidableEq

/-- What `Pipe.read` hands back to its caller. -/
inductive ReadResult
  | message (s : String)
  | noData
  | clientGarbageCollected
  | ioFailure (winerr : Nat)
deriving DecidableEq

/-- `Pipe.read` (`Classes/Pipe.py` lines 51-71): a payload equal to the
`'garbage_collected'` sentinel raises `Client_Garbage_Collected`
(`clientGarbageCollected`); any other payload is returned as a message.
`ERROR_NO_DATA` with the non-blocking flag set returns `None` (`noData`);
every other `pywintypes.error` is re-raised (`ioFailure`). -/
def pipeRead (nowaitSet : Bool) : ReadOutcome → ReadResult
  | ReadOutcome.data payload =>
    if payload == "garbage_collected" then ReadResult.clientGarbageCollected
    else ReadResult.message payload
  | ReadOutcome.ioError winerr =>
    if winerr == ERROR_NO_DATA && nowaitSet then ReadResult.noData
    else ReadResult.ioFailure winerr

/-- What a call to `Server_Process.Join` did: how long the `join(timeout)`
wait blocked, whether `terminate()` fired, and whether the worker's OS
process is still alive afterwards. -/
structure JoinResult where
  elapsed : Nat
  forced : Bool
  aliveAfter : Bool
deriving DecidableEq

/-- `Server_Process.Join(timeout)` (`Main.py` lines 91-95): `join(timeout)`
blocks until the process exits (`exitsAt`, `none` = the worker never exits
on its own, e.g. it never polls its stop event) or the timeout elapses,
whichever is first; if the process is then still alive, `terminate()`
forcibly kills it. -/
def Join (exitsAt : Option Nat) (timeout : Nat) : JoinResult :=
  let waited : Nat :=
    match exitsAt with
    | some t => min t timeout
    | none => timeout
  let aliveAfterWait : Bool :=
    match exitsAt with
    | some t => timeout < t
    | none => true
  if aliveAfterWait then { elapsed := waited, forced := true, aliveAfter := false }
  else { elapsed := waited, forced := false, aliveAfter := false }

/-- Log levels of the `logging` calls modelled here. -/
inductive LogLevel
  | debugL
  | infoL
  | warningL
  | errorL
deriving DecidableEq

/-- How `run_with_stop` invoked the module's entry point. -/
inductive CallMode
  | withStopEvent
  | direct
deriving DecidableEq

/-- `Server_Process.run_with_stop` (`Main.py` lines 78-85), keyed by the
entry point's parameter count (`len(inspect.signature(fn).parameters)`):
one or more parameters gets the stop event; zero parameters is invoked
directly.  Each branch emits exactly one `logger.debug` line — inside the
worker process, when it starts running. -/
def run_with_stop (paramCount : Nat) : CallMode × List (LogLevel × String) :=
  if paramCount ≥ 1 then
    (CallMode.withStopEvent, [(LogLevel.debugL, "calling target with stop_event")])
  else
    (CallMode.direct, [(LogLevel.debugL, "calling target without stop_event")])

/-- The log line emitted at the spawn site in `run_server` (`Main.py`
line 297): a single `logger.info`, whatever the entry point's signature. -/
def spawnLogs (procName : String) : List (LogLevel × String) :=
  [(LogLevel.infoL, "Started process " ++ procName)]

/-- A concrete environment for evaluating the model: one module
`extensions/modA/script.py` under the root `C:/Game`, whose extension
manifest carries an id that the permission map allows. -/
def envA : Env where
  fileExists := fun p => p == pathParts "C:/Game/extensions/modA/script.py"
  manifest := fun p =>
    if p == pathParts "C:/Game/extensions/modA" then
      some "<content id=\"ws_2042901274\" version=\"1\">"
    else none
  perms := fun s => if s == "ws_2042901274" then some true else none
  importsOk := fun _ => true
  hasMain := fun _ => true

/-- A concrete environment in which every file exists and imports, but the
permission map is empty: neither any extension id nor any folder name is a
key. -/
def envB : Env where
  fileExists := fun _ => true
  manifest := fun _ => some "<content id=\"ws_unlisted\" version=\"1\">"
  perms := fun _ => none
  importsOk := fun _ => true
  hasMain := fun _ => true

/-- A concrete environment whose extension manifests carry no `id`
attribute. -/
def envC : Env where
  fileExists := fun _ => true
  manifest := fun _ => some "<content version=\"1\">"
  perms := fun _ => none
  importsOk := fun _ => true
  hasMain := fun _ => true

/-- A concrete environment in which permission is granted but every module
fails to import. -/
def envD : Env where
  fileExists := fun _ => true
  manifest := fun _ => some "<content id=\"ws_2042901274\" version=\"1\">"
  perms := fun s => if s == "ws_2042901274" then some true else none
  importsOk := fun _ => false
  hasMain := fun _ => false

/-- A concrete session: handshake, one module announcement, then the peer
is garbage collected. -/
def sessionA : Session :=
  ⟨["package.path:./?.lua;C:/Game/lua/?.lua;", "modules:extensions/modA/script.py;"],
   SessionEnd.pipeExn Win32Exn.garbageCollected⟩

/-- A concrete reconnect session that re-announces the same module. -/
def sessionB : Session :=
  ⟨["package.path:C:/Game/ui/?.lua;", "modules:extensions/modA/script.py;"],
   SessionEnd.restartMsg⟩

end X4

namespace X4

/-- C4: `Pipe.read` never returns the `'garbage_collected'` teardown
sentinel as ordinary message data: a payload equal to the sentinel raises
`Client_Garbage_Collected` instead. -/
theorem c4_sentinel_never_message (nowaitSet : Bool) (o : ReadOutcome) :
    pipeRead nowaitSet o ≠ ReadResult.message "garbage_collected" ∧
    pipeRead nowaitSet (ReadOutcome.data "garbage_collected")
      = ReadResult.clientGarbageCollected := by
  constructor
  · cases o with
    | data payload =>
      by_cases h : payload = "garbage_collected" <;> simp [pipeRead, h]
    | ioError winerr =>
      simp only [pipeRead]
      split <;> simp
  · simp [pipeRead]

/-- C5: `handle_win32_exception` maps a `CreateNamedPipe` failure to fatal,
`Client_Garbage_Collected` and broken-pipe errors to recoverable (outside
test mode), every condition to fatal in test mode, and a recoverable
outcome issues no worker-handle operations. -/
theorem c5_decision (test : Bool) (winerr : Nat) (funcname : String)
    (hf : funcname ≠ "CreateNamedPipe") (e : Win32Exn) (procs : List PathParts) :
    handle_win32_exception test (Win32Exn.apiError "CreateNamedPipe" winerr) = true ∧
    handle_win32_exception false Win32Exn.garbageCollected = false ∧
    handle_win32_exception false (Win32Exn.apiError funcname ERROR_BROKEN_PIPE) = false ∧
    handle_win32_exception true e = true ∧
    finallyEvents false procs = [] := by
  refine ⟨?_, rfl, ?_, ?_, rfl⟩
  · cases test <;> rfl
  · simp [handle_win32_exception, hf]
  · simp [handle_win32_exception]

/-- Closed instance of `c5_decision`. -/
theorem c5_decision_witness :
    handle_win32_exception false (Win32Exn.apiError "CreateNamedPipe" 231) = true ∧
    handle_win32_exception false Win32Exn.garbageCollected = false ∧
    handle_win32_exception false (Win32Exn.apiError "ReadFile" ERROR_BROKEN_PIPE) = false ∧
    handle_win32_exception true Win32Exn.garbageCollected = true ∧
    finallyEvents false [pathParts "extensions/modA/script.py"] = [] :=
  c5_decision false 231 "ReadFile" (by decide) Win32Exn.garbageCollected
    [pathParts "extensions/modA/script.py"]

/-- C7: `Server_Process.Join` blocks at most `timeout`, leaves no live
worker process behind, and force-terminates a worker that never exits on
its own. -/
theorem c7_join_bounded (exitsAt : Option Nat) (timeout : Nat) :
    (Join exitsAt timeout).elapsed ≤ timeout ∧
    (Join exitsAt timeout).aliveAfter = false ∧
    (exitsAt = none → (Join exitsAt timeout).forced = true) := by
  cases exitsAt with
  | none => simp [Join]
  | some t =>
    refine ⟨?_, ?_, by simp⟩
    · simp only [Join]
      split <;> simp [Nat.min_le_right]
    · simp only [Join]
      split <;> rfl

/-- Closed instance of `c7_join_bounded` for a worker that never exits. -/
theorem c7_join_bounded_witness :
    (Join none 5).elapsed ≤ 5 ∧ (Join none 5).aliveAfter = false ∧
    (Join none 5).forced = true :=
  ⟨(c7_join_bounded none 5).1, (c7_join_bounded none 5).2.1,
   (c7_join_bounded none 5).2.2 rfl⟩

end X4

namespace X4

/-- C2: `package.path:` root resolution — each segment is walked upward
through itself and its ancestors, the first directory named `lua` or `ui`
(case-insensitively) yields its parent as the root, the first matching
segment wins and later segments are not examined; on
`package.path:./?.lua;C:/Game/lua/?.lua;C:/Game/lua/?/init.lua;` the
resolved root is `C:/Game`. -/
theorem c2_root_resolution (env : Env) (seen procs : List PathParts)
    (seg : String) (rest : List String) (r : PathParts)
    (hsome : segRoot seg = some r) (seg' : String) (rest' : List String)
    (hnone : segRoot seg' = none) :
    (handleMessage env ⟨none, seen, procs⟩
        "package.path:./?.lua;C:/Game/lua/?.lua;C:/Game/lua/?/init.lua;").1.x4_root
      = some ["C:", "Game"] ∧
    updateRoot none (seg :: rest) = some r ∧
    updateRoot none (seg' :: rest') = updateRoot none rest' := by
  refine ⟨rfl, ?_, ?_⟩
  · simp [updateRoot, hsome]
  · simp [updateRoot, hnone]

/-- Closed instance of `c2_root_resolution`: the matching segment
`C:/Game/lua/?.lua` wins over anything that follows, and the non-matching
segment `./?.lua` defers to the rest. -/
theorem c2_root_resolution_witness :
    (handleMessage envA ⟨none, [], []⟩
        "package.path:./?.lua;C:/Game/lua/?.lua;C:/Game/lua/?/init.lua;").1.x4_root
      = some ["C:", "Game"] ∧
    updateRoot none ("C:/Game/lua/?.lua" :: ["D:/Other/ui/?.lua"]) = some ["C:", "Game"] ∧
    updateRoot none ("./?.lua" :: ["D:/Other/ui/?.lua"]) = updateRoot none ["D:/Other/ui/?.lua"] :=
  c2_root_resolution envA [] [] "C:/Game/lua/?.lua" ["D:/Other/ui/?.lua"] ["C:", "Game"]
    (by decide) "./?.lua" ["D:/Other/ui/?.lua"] (by decide)

/-- C10: `check_permission` is total — every internal failure is the
decision `False`: a relative path with fewer than three components
(`module_path.parents[-3]` raises `IndexError`), a missing or unreadable
`content.xml`, or a manifest without an `id` attribute. -/
theorem c10_check_permission_total (env : Env) (x4_path modp : PathParts) :
    (modp.length < 3 → check_permission env x4_path modp = false) ∧
    (env.manifest (x4_path ++ modp.take 2) = none →
      check_permission env x4_path modp = false) ∧
    (∀ c, env.manifest (x4_path ++ modp.take 2) = some c → extractId c = none →
      check_permission env x4_path modp = false) := by
  refine ⟨?_, ?_, ?_⟩
  · intro h
    unfold check_permission
    split_ifs <;> rfl
  · intro h
    unfold check_permission
    split_ifs <;> first | rfl | simp [h]
  · intro c hc he
    unfold check_permission
    split_ifs <;> first | rfl | simp [hc, he]

/-- Closed instance of `c10_check_permission_total` on its three failure
shapes. -/
theorem c10_check_permission_total_witness :
    check_permission envA ["C:", "Game"] (pathParts "extensions/short.py") = false ∧
    check_permission envA ["C:", "Game"] (pathParts "extensions/other/main.py") = false ∧
    check_permission envC ["C:", "Game"] (pathParts "extensions/noid/main.py") = false :=
  ⟨(c10_check_permission_total envA ["C:", "Game"] (pathParts "extensions/short.py")).1
      (by decide),
   (c10_check_permission_total envA ["C:", "Game"] (pathParts "extensions/other/main.py")).2.1
      (by decide),
   (c10_check_permission_total envC ["C:", "Game"] (pathParts "extensions/noid/main.py")).2.2
      "<content version=\"1\">" (by decide) (by decide)⟩

end X4

namespace X4

/-- C8 counterexample: for a zero-parameter entry point the degraded
(non-stoppable) condition is *not* logged as a warning — neither the spawn
site (`logger.info` only) nor `run_with_stop` (`logger.debug` only) emits
a warning-level record, refuting the claim that the condition "is logged
as a warning at spawn time". -/
theorem c8_no_warning_counterexample :
    (run_with_stop 0).1 = CallMode.direct ∧
    ((run_with_stop 0).2.all fun e => decide (e.1 ≠ LogLevel.warningL)) = true ∧
    ((spawnLogs "Proc_extensions_modA_script.py").all
        fun e => decide (e.1 ≠ LogLevel.warningL)) = true := by
  decide

/-- C8 amended: a worker whose entry point accepts no parameters is invoked
without the stop signal, and the degraded condition is recorded only as a
debug-level message emitted inside the worker when it starts running — no
warning is emitted at spawn time. -/
theorem c8_direct_call_debug_logged (paramCount : Nat) (h : paramCount < 1)
    (procName : String) :
    (run_with_stop paramCount).1 = CallMode.direct ∧
    (run_with_stop paramCount).2
      = [(LogLevel.debugL, "calling target without stop_event")] ∧
    ((spawnLogs procName).all fun e => decide (e.1 ≠ LogLevel.warningL)) = true := by
  have h0 : ¬ paramCount ≥ 1 := by omega
  refine ⟨?_, ?_, by simp [spawnLogs]⟩ <;> simp [run_with_stop, h0]

/-- Closed instance of `c8_direct_call_debug_logged`. -/
theorem c8_direct_call_debug_logged_witness :
    (run_with_stop 0).1 = CallMode.direct ∧
    (run_with_stop 0).2 = [(LogLevel.debugL, "calling target without stop_event")] ∧
    ((spawnLogs "Proc_extensions_modA_script.py").all
        fun e => decide (e.1 ≠ LogLevel.warningL)) = true :=
  c8_direct_call_debug_logged 0 (by decide) "Proc_extensions_modA_script.py"

end X4

namespace X4

theorem hm_seen_mono (env : Env) (root : PathParts) (seen procs : List PathParts)
    (rel : String) : seen ⊆ (handleModule env root seen procs rel).1 := by
  simp only [handleModule]
  split_ifs <;> simp [List.subset_append_left]

theorem hm_count_frozen (env : Env) (root : PathParts) (seen procs : List PathParts)
    (rel : String) (r : PathParts) (hr : r ∈ seen) :
    ((handleModule env root seen procs rel).2.1).count r = procs.count r := by
  simp only [handleModule]
  split_ifs with h1 h2 h3 h4 h5 <;> try rfl
  have hne : ¬ (pathParts rel = r) := fun he => h1 (he ▸ hr)
  simp [List.count_append, List.count_cons, List.count_nil, hne]

theorem hm_inv (env : Env) (root : PathParts) (seen procs : List PathParts)
    (rel : String) (h1 : procs.Nodup) (h2 : ∀ r ∈ procs, r ∈ seen) :
    ((handleModule env root seen procs rel).2.1).Nodup ∧
    (∀ r ∈ (handleModule env root seen procs rel).2.1,
      r ∈ (handleModule env root seen procs rel).1) := by
  simp only [handleModule]
  split_ifs with hseen hfile hperm himp hmain
  · exact ⟨h1, h2⟩
  · exact ⟨h1, h2⟩
  · exact ⟨h1, h2⟩
  · exact ⟨h1, fun r hr => List.mem_append_left _ (h2 r hr)⟩
  · exact ⟨h1, fun r hr => List.mem_append_left _ (h2 r hr)⟩
  · constructor
    · rw [List.nodup_append]
      refine ⟨h1, List.nodup_singleton _, ?_⟩
      intro r hr hmem
      rw [List.mem_singleton] at hmem
      subst hmem
      exact hseen (h2 _ hr)
    · intro r hr
      rcases List.mem_append.mp hr with h | h
      · exact List.mem_append_left _ (h2 r h)
      · exact List.mem_append_right _ h

end X4

namespace X4

theorem hms_seen_mono (env : Env) (root : PathParts) (rels : List String) :
    ∀ seen procs : List PathParts,
      seen ⊆ (handleModules env root seen procs rels).1 := by
  induction rels with
  | nil => intro seen procs; simp [handleModules]
  | cons rel rest ih =>
    intro seen procs
    simp only [handleModules]
    exact List.Subset.trans (hm_seen_mono env root seen procs rel) (ih _ _)

theorem hms_count_frozen (env : Env) (root : PathParts) (rels : List String) :
    ∀ seen procs r, r ∈ seen →
      ((handleModules env root seen procs rels).2).count r = procs.count r := by
  induction rels with
  | nil => intro seen procs r _; simp [handleModules]
  | cons rel rest ih =>
    intro seen procs r hr
    simp only [handleModules]
    rw [ih _ _ r (hm_seen_mono env root seen procs rel hr)]
    exact hm_count_frozen env root seen procs rel r hr

theorem hms_inv (env : Env) (root : PathParts) (rels : List String) :
    ∀ seen procs, procs.Nodup → (∀ r ∈ procs, r ∈ seen) →
      ((handleModules env root seen procs rels).2).Nodup ∧
      (∀ r ∈ (handleModules env root seen procs rels).2,
        r ∈ (handleModules env root seen procs rels).1) := by
  induction rels with
  | nil => intro seen procs h1 h2; simpa [handleModules] using ⟨h1, h2⟩
  | cons rel rest ih =>
    intro seen procs h1 h2
    simp only [handleModules]
    have h := hm_inv env root seen procs rel h1 h2
    exact ih _ _ h.1 h.2

theorem hmm_seen_mono (env : Env) (st : SessionSt) (raw : String) :
    st.seen ⊆ (handleModulesMsg env st raw).seen := by
  unfold handleModulesMsg
  cases h : st.x4_root with
  | none => exact List.Subset.refl _
  | some root => simpa using hms_seen_mono env root (nonEmptySegments raw) st.seen st.procs

theorem hmm_count_frozen (env : Env) (st : SessionSt) (raw : String) (r : PathParts)
    (hr : r ∈ st.seen) :
    ((handleModulesMsg env st raw).procs).count r = st.procs.count r := by
  unfold handleModulesMsg
  cases h : st.x4_root with
  | none => rfl
  | some root => simpa using hms_count_frozen env root (nonEmptySegments raw) st.seen st.procs r hr

theorem hmm_inv (env : Env) (st : SessionSt) (raw : String)
    (h1 : st.procs.Nodup) (h2 : ∀ r ∈ st.procs, r ∈ st.seen) :
    ((handleModulesMsg env st raw).procs).Nodup ∧
    (∀ r ∈ (handleModulesMsg env st raw).procs, r ∈ (handleModulesMsg env st raw).seen) := by
  unfold handleModulesMsg
  cases h : st.x4_root with
  | none => exact ⟨h1, h2⟩
  | some root => simpa using hms_inv env root (nonEmptySegments raw) st.seen st.procs h1 h2

theorem msg_seen_mono (env : Env) (st : SessionSt) (msg : String) :
    st.seen ⊆ (handleMessage env st msg).1.seen := by
  unfold handleMessage
  split_ifs <;> first | exact List.Subset.refl _ | exact hmm_seen_mono env st _

theorem msg_count_frozen (env : Env) (st : SessionSt) (msg : String) (r : PathParts)
    (hr : r ∈ st.seen) :
    ((handleMessage env st msg).1.procs).count r = st.procs.count r := by
  unfold handleMessage
  split_ifs <;> first | rfl | exact hmm_count_frozen env st _ r hr

theorem msg_inv (env : Env) (st : SessionSt) (msg : String)
    (h1 : st.procs.Nodup) (h2 : ∀ r ∈ st.procs, r ∈ st.seen) :
    ((handleMessage env st msg).1.procs).Nodup ∧
    (∀ r ∈ (handleMessage env st msg).1.procs, r ∈ (handleMessage env st msg).1.seen) := by
  unfold handleMessage
  split_ifs <;> first | exact ⟨h1, h2⟩ | exact hmm_inv env st _ h1 h2

end X4

namespace X4

theorem runMsgs_seen_mono (env : Env) (msgs : List String) :
    ∀ st : SessionSt, st.seen ⊆ (runMsgs env st msgs).seen := by
  induction msgs with
  | nil => intro st; exact List.Subset.refl _
  | cons m rest ih =>
    intro st
    simp only [runMsgs]
    rcases hm : handleMessage env st m with ⟨st', act⟩
    have hsub : st.seen ⊆ st'.seen := by
      have := msg_seen_mono env st m
      rw [hm] at this
      exact this
    cases act with
    | cont => exact List.Subset.trans hsub (ih st')
    | endSession => exact hsub

theorem runMsgs_count_frozen (env : Env) (msgs : List String) :
    ∀ (st : SessionSt) (r : PathParts), r ∈ st.seen →
      ((runMsgs env st msgs).procs).count r = st.procs.count r := by
  induction msgs with
  | nil => intro st r _; rfl
  | cons m rest ih =>
    intro st r hr
    simp only [runMsgs]
    rcases hm : handleMessage env st m with ⟨st', act⟩
    have hsub : st.seen ⊆ st'.seen := by
      have := msg_seen_mono env st m; rw [hm] at this; exact this
    have hcnt : st'.procs.count r = st.procs.count r := by
      have := msg_count_frozen env st m r hr; rw [hm] at this; exact this
    cases act with
    | cont => rw [ih st' r (hsub hr)]; exact hcnt
    | endSession => exact hcnt

theorem runMsgs_inv (env : Env) (msgs : List String) :
    ∀ st : SessionSt, st.procs.Nodup → (∀ r ∈ st.procs, r ∈ st.seen) →
      ((runMsgs env st msgs).procs).Nodup ∧
      (∀ r ∈ (runMsgs env st msgs).procs, r ∈ (runMsgs env st msgs).seen) := by
  induction msgs with
  | nil => intro st h1 h2; exact ⟨h1, h2⟩
  | cons m rest ih =>
    intro st h1 h2
    simp only [runMsgs]
    rcases hm : handleMessage env st m with ⟨st', act⟩
    have h' : st'.procs.Nodup ∧ ∀ r ∈ st'.procs, r ∈ st'.seen := by
      have := msg_inv env st m h1 h2; rw [hm] at this; exact this
    cases act with
    | cont => exact ih st' h'.1 h'.2
    | endSession => exact h'

theorem runSession_seen_mono (env : Env) (test : Bool) (rs : RunState) (s : Session) :
    rs.seen ⊆ (runSession env test rs s).seen := by
  unfold runSession
  split_ifs
  · exact List.Subset.refl _
  · exact runMsgs_seen_mono env s.msgs ⟨none, rs.seen, rs.procs⟩

theorem runSession_count_frozen (env : Env) (test : Bool) (rs : RunState) (s : Session)
    (r : PathParts) (hr : r ∈ rs.seen) :
    ((runSession env test rs s).procs).count r = rs.procs.count r := by
  unfold runSession
  split_ifs
  · rfl
  · exact runMsgs_count_frozen env s.msgs ⟨none, rs.seen, rs.procs⟩ r hr

theorem runSession_inv (env : Env) (test : Bool) (rs : RunState) (s : Session)
    (h1 : rs.procs.Nodup) (h2 : ∀ r ∈ rs.procs, r ∈ rs.seen) :
    ((runSession env test rs s).procs).Nodup ∧
    (∀ r ∈ (runSession env test rs s).procs, r ∈ (runSession env test rs s).seen) := by
  unfold runSession
  split_ifs
  · exact ⟨h1, h2⟩
  · exact runMsgs_inv env s.msgs ⟨none, rs.seen, rs.procs⟩ h1 h2

theorem runFrom_seen_mono (env : Env) (test : Bool) (sessions : List Session) :
    ∀ rs : RunState, rs.seen ⊆ (runFrom env test rs sessions).seen := by
  induction sessions with
  | nil => intro rs; exact List.Subset.refl _
  | cons s rest ih =>
    intro rs
    simp only [runFrom]
    exact List.Subset.trans (runSession_seen_mono env test rs s) (ih _)

theorem runFrom_count_frozen (env : Env) (test : Bool) (sessions : List Session) :
    ∀ (rs : RunState) (r : PathParts), r ∈ rs.seen →
      ((runFrom env test rs sessions).procs).count r = rs.procs.count r := by
  induction sessions with
  | nil => intro rs r _; rfl
  | cons s rest ih =>
    intro rs r hr
    simp only [runFrom]
    rw [ih _ r (runSession_seen_mono env test rs s hr)]
    exact runSession_count_frozen env test rs s r hr

theorem runFrom_inv (env : Env) (test : Bool) (sessions : List Session) :
    ∀ rs : RunState, rs.procs.Nodup → (∀ r ∈ rs.procs, r ∈ rs.seen) →
      ((runFrom env test rs sessions).procs).Nodup ∧
      (∀ r ∈ (runFrom env test rs sessions).procs,
        r ∈ (runFrom env test rs sessions).seen) := by
  induction sessions with
  | nil => intro rs h1 h2; exact ⟨h1, h2⟩
  | cons s rest ih =>
    intro rs h1 h2
    simp only [runFrom]
    have h := runSession_inv env test rs s h1 h2
    exact ih _ h.1 h.2

end X4

namespace X4

/-- C1: a module relative path already in the dispatched set when a
`modules:` message announces it is never spawned a second time — the
spawned-process list never holds duplicates, and the dispatched set
(`seen_modules`) persists across Channel re-creations: continuing the run
with any further sessions keeps every dispatched path in the set and spawns
no further worker for it. -/
theorem c1_dispatch_once (env : Env) (test : Bool) (sessions more : List Session)
    (rel : PathParts) (h : rel ∈ (runSessions env test sessions).seen) :
    (runSessions env test sessions).procs.Nodup ∧
    rel ∈ (runFrom env test (runSessions env test sessions) more).seen ∧
    (runFrom env test (runSessions env test sessions) more).procs.count rel
      = (runSessions env test sessions).procs.count rel := by
  refine ⟨?_, ?_, ?_⟩
  · exact (runFrom_inv env test sessions ⟨[], [], false⟩ List.nodup_nil (by simp)).1
  · exact runFrom_seen_mono env test more _ h
  · exact runFrom_count_frozen env test more _ rel h

/-- Closed instance of `c1_dispatch_once`: a session dispatches
`extensions/modA/script.py`, the peer is garbage collected, and a
reconnect session re-announcing the same module spawns nothing new. -/
theorem c1_dispatch_once_witness :
    pathParts "extensions/modA/script.py" ∈ (runSessions envA false [sessionA]).seen ∧
    ((runSessions envA false [sessionA]).procs.Nodup ∧
     pathParts "extensions/modA/script.py"
       ∈ (runFrom envA false (runSessions envA false [sessionA]) [sessionB]).seen ∧
     (runFrom envA false (runSessions envA false [sessionA]) [sessionB]).procs.count
         (pathParts "extensions/modA/script.py")
       = (runSessions envA false [sessionA]).procs.count
           (pathParts "extensions/modA/script.py")) :=
  ⟨by decide,
   c1_dispatch_once envA false [sessionA] [sessionB] (pathParts "extensions/modA/script.py")
     (by decide)⟩

/-- C9: `seen_modules.append` happens after the permission check but before
the import attempt — a module whose import fails or that lacks `main` is
recorded as dispatched (and not spawned), a path already in the set is
short-circuited to `alreadySeen` with no state change, a module skipped for
a missing file or denied permission leaves the set unchanged (so it is
re-examined on a later announcement), and set membership persists across
all later sessions. -/
theorem c9_seen_before_import (env : Env) (root : PathParts)
    (seen procs : List PathParts) (rel : String) (test : Bool)
    (more : List Session) :
    ((handleModule env root seen procs rel).2.2 = ModuleOutcome.importFailed ∨
       (handleModule env root seen procs rel).2.2 = ModuleOutcome.noMain →
      pathParts rel ∈ (handleModule env root seen procs rel).1 ∧
      (handleModule env root seen procs rel).2.1 = procs) ∧
    ((handleModule env root seen procs rel).2.2 = ModuleOutcome.fileMissing ∨
       (handleModule env root seen procs rel).2.2 = ModuleOutcome.permDenied →
      (handleModule env root seen procs rel).1 = seen ∧
      (handleModule env root seen procs rel).2.1 = procs) ∧
    (pathParts rel ∈ seen →
      handleModule env root seen procs rel = (seen, procs, ModuleOutcome.alreadySeen)) ∧
    (∀ rs : RunState, pathParts rel ∈ rs.seen →
      pathParts rel ∈ (runFrom env test rs more).seen) := by
  refine ⟨?_, ?_, ?_, ?_⟩
  · simp only [handleModule]
    split_ifs <;> intro hs <;> simp_all
  · simp only [handleModule]
    split_ifs <;> intro hs <;> simp_all
  · intro hmem
    simp only [handleModule]
    split_ifs
    rfl
  · intro rs hmem
    exact runFrom_seen_mono env test more rs hmem

end X4

namespace X4

/-- Closed instance of `c9_seen_before_import`: under `envD` the module
imports nothing, yet after handling it is recorded in the dispatched set;
a second look at the same path short-circuits to `alreadySeen`. -/
theorem c9_seen_before_import_witness :
    (pathParts "extensions/modA/script.py"
        ∈ (handleModule envD ["C:", "Game"] [] [] "extensions/modA/script.py").1 ∧
     (handleModule envD ["C:", "Game"] [] [] "extensions/modA/script.py").2.1 = []) ∧
    handleModule envD ["C:", "Game"] [pathParts "extensions/modA/script.py"] []
        "extensions/modA/script.py"
      = ([pathParts "extensions/modA/script.py"], [], ModuleOutcome.alreadySeen) ∧
    pathParts "extensions/modA/script.py"
      ∈ (runFrom envD false ⟨[pathParts "extensions/modA/script.py"], [], false⟩
          [sessionB]).seen :=
  ⟨(c9_seen_before_import envD ["C:", "Game"] [] [] "extensions/modA/script.py" false
      [sessionB]).1 (Or.inl (by decide)),
   (c9_seen_before_import envD ["C:", "Game"] [pathParts "extensions/modA/script.py"] []
      "extensions/modA/script.py" false [sessionB]).2.2.1 (by decide),
   (c9_seen_before_import envD ["C:", "Game"] [] [] "extensions/modA/script.py" false
      [sessionB]).2.2.2 ⟨[pathParts "extensions/modA/script.py"], [], false⟩ (by decide)⟩

theorem check_permission_requires_extensions (env : Env) (root mp : PathParts) :
    check_permission env root mp = true →
    startsWithStr "extensions/" (posixStr mp) = true := by
  unfold check_permission
  split_ifs with h <;> intro hc
  · simp at hc
  all_goals simpa using h

theorem check_permission_absent (env : Env) (root mp : PathParts)
    (h1 : extIdAbsent env root mp = true)
    (h2 : (env.perms (pathName (root ++ mp.take 2))).isNone = true) :
    check_permission env root mp = false := by
  unfold check_permission
  split_ifs with ha hb
  · rfl
  · rfl
  · cases hm : env.manifest (root ++ mp.take 2) with
    | none => simp [hm]
    | some c =>
      cases he : extractId c with
      | none => simp [hm, he]
      | some i =>
        have hpi : env.perms i = none := by
          unfold extIdAbsent extIdOf at h1
          rw [hm] at h1
          simp only [he] at h1
          simpa using h1
        have hpf : env.perms (pathName (root ++ mp.take 2)) = none := by
          simpa using h2
        simp [hm, he, hpi, hpf]

/-- C3: a worker is spawned only for a path under a top-level `extensions/`
directory that passes `check_permission`; a module whose extension id is
absent from the permission map and whose containing folder name is also
absent is never spawned, whatever `fileExists` says. -/
theorem c3_permission_gate (env : Env) (root : PathParts)
    (seen procs : List PathParts) (rel : String) :
    ((handleModule env root seen procs rel).2.2 = ModuleOutcome.spawned →
      startsWithStr "extensions/" (posixStr (pathParts rel)) = true ∧
      check_permission env root (pathParts rel) = true) ∧
    (extIdAbsent env root (pathParts rel) = true →
     (env.perms (pathName (root ++ (pathParts rel).take 2))).isNone = true →
      (handleModule env root seen procs rel).2.2 ≠ ModuleOutcome.spawned ∧
      (handleModule env root seen procs rel).2.1 = procs) := by
  constructor
  · simp only [handleModule]
    split_ifs with h1 h2 h3 h4 h5 <;> intro hs
    · simp at hs
    · simp at hs
    · simp at hs
    · simp at hs
    · simp at hs
    · have hcp : check_permission env root (pathParts rel) = true := by simpa using h3
      exact ⟨check_permission_requires_extensions env root (pathParts rel) hcp, hcp⟩
  · intro ha hf
    have hcp := check_permission_absent env root (pathParts rel) ha hf
    simp only [handleModule]
    split_ifs with h1 h2
    · exact ⟨by simp, rfl⟩
    · exact ⟨by simp, rfl⟩
    · exact ⟨by simp, rfl⟩

/-- Closed instance of `c3_permission_gate`: under the empty permission map
(`envB`) the module exists and imports, but is not spawned. -/
theorem c3_permission_gate_witness :
    (handleModule envB ["C:", "Game"] [] [] "extensions/modX/main.py").2.2
        ≠ ModuleOutcome.spawned ∧
    (handleModule envB ["C:", "Game"] [] [] "extensions/modX/main.py").2.1 = [] :=
  (c3_permission_gate envB ["C:", "Game"] [] [] "extensions/modX/main.py").2
    (by decide) (by decide)

end X4

namespace X4

theorem shutdownEvents_length (procs : List PathParts) :
    (shutdownEvents procs).length = procs.length + procs.length := by
  simp [shutdownEvents]

theorem shutdownEvents_isClose (procs : List PathParts) (i : Nat)
    (hi : i < (shutdownEvents procs).length) :
    ((shutdownEvents procs).get ⟨i, hi⟩).isClose = decide (i < procs.length) := by
  rcases Nat.lt_or_ge i procs.length with h | h
  · have hmap : i < (procs.map ProcEvent.close).length := by simpa using h
    rw [List.get_eq_getElem]
    simp only [shutdownEvents]
    rw [List.getElem_append_left hmap]
    simp [ProcEvent.isClose, h, List.getElem_map]
  · have hmap : (procs.map ProcEvent.close).length ≤ i := by simpa using h
    rw [List.get_eq_getElem]
    simp only [shutdownEvents]
    rw [List.getElem_append_right hmap]
    simp [ProcEvent.isClose, List.getElem_map, Nat.not_lt.mpr h]

/-- C6: the `finally` shutdown sequence issues `Close` to every tracked
worker handle and then `Join` to every tracked worker handle: every handle
receives both operations, every `Close` strictly precedes every `Join`, the
full sequence is what runs whenever `shutdown` is set, and unclassified
exceptions and `KeyboardInterrupt` do set `shutdown`. -/
theorem c6_stop_all_before_join_all (procs : List PathParts) (p : PathParts)
    (hp : p ∈ procs) (i j : Nat)
    (hi : i < (shutdownEvents procs).length) (hj : j < (shutdownEvents procs).length)
    (hic : ((shutdownEvents procs).get ⟨i, hi⟩).isClose = true)
    (hjc : ((shutdownEvents procs).get ⟨j, hj⟩).isClose = false) :
    ProcEvent.close p ∈ shutdownEvents procs ∧
    ProcEvent.join p ∈ shutdownEvents procs ∧
    i < j ∧
    finallyEvents true procs = shutdownEvents procs ∧
    sessionShutdown false SessionEnd.otherException = true ∧
    sessionShutdown false SessionEnd.keyboardInterrupt = true := by
  refine ⟨?_, ?_, ?_, rfl, rfl, rfl⟩
  · exact List.mem_append_left _ (List.mem_map_of_mem ProcEvent.close hp)
  · exact List.mem_append_right _ (List.mem_map_of_mem ProcEvent.join hp)
  · rw [shutdownEvents_isClose procs i hi] at hic
    rw [shutdownEvents_isClose procs j hj] at hjc
    have h1 : i < procs.length := of_decide_eq_true hic
    have h2 : ¬ j < procs.length := of_decide_eq_false hjc
    omega

/-- Closed instance of `c6_stop_all_before_join_all` on a two-worker run. -/
theorem c6_stop_all_before_join_all_witness :
    ProcEvent.close (pathParts "extensions/modA/script.py")
      ∈ shutdownEvents [pathParts "extensions/modA/script.py", pathParts "extensions/modB/script.py"] ∧
    ProcEvent.join (pathParts "extensions/modA/script.py")
      ∈ shutdownEvents [pathParts "extensions/modA/script.py", pathParts "extensions/modB/script.py"] ∧
    (1 : Nat) < 2 ∧
    finallyEvents true [pathParts "extensions/modA/script.py", pathParts "extensions/modB/script.py"]
      = shutdownEvents [pathParts "extensions/modA/script.py", pathParts "extensions/modB/script.py"] ∧
    sessionShutdown false SessionEnd.otherException = true ∧
    sessionShutdown false SessionEnd.keyboardInterrupt = true :=
  c6_stop_all_before_join_all
    [pathParts "extensions/modA/script.py", pathParts "extensions/modB/script.py"]
    (pathParts "extensions/modA/script.py") (by decide) 1 2 (by decide) (by decide)
    (by decide) (by decide)

end X4
